import Mathlib

/-!
# Middleware chaining

A shallow embedding of the Go package `middleware` (`middleware/middleware.go`) and of
the demonstration program that uses it (`main.go`).

Go function values are modelled as `Option`s of Lean functions (`none` is the nil
function value, calling it panics).  Side effects are modelled by explicit state
passing over a `World`; a call either returns or unwinds with a panic, which is the
`Outcome` type.  Handlers and middlewares are total functions of the world: calls that
never come back (an endless loop, `os.Exit`) are outside the model.

The transport (`net/http`) is a black box: it always supplies a non-nil writer and a
non-nil request, and the fields of the request are not written to during one traversal
of a chain.  `log.Printf` is a black box that emits one record made of the format and
the arguments it was given.
-/

namespace Topics

/-! ## Data model -/

/-- The `http.ResponseWriter` of one exchange, named by the connection it writes to. -/
structure ResponseWriter where
  conn : Nat
  deriving DecidableEq

/-- The part of `http.Request` the program reads. -/
structure Request where
  RequestURI : String
  deriving DecidableEq

/-- An argument handed to `log.Printf`. -/
inductive Arg where
  | str (s : String)
  | uint (n : Nat)
  | dur (d : Int)
  deriving DecidableEq

/-- One observable action, in the order in which the program performed it. -/
inductive Event where
  /-- One call `log.Printf(format, args...)`. -/
  | printf (format : String) (args : List Arg)
  /-- One call `w.WriteHeader(statusCode)`. -/
  | writeHeader (w : ResponseWriter) (statusCode : Nat)
  /-- One call `w.Write([]byte(body))`. -/
  | write (w : ResponseWriter) (body : String)
  /-- One call `time.Sleep(d)`, with `d` in nanoseconds. -/
  | sleep (d : Int)
  /-- An entry appended to a log shared by handlers supplied by a caller of the package. -/
  | entry (tag : String)
  deriving DecidableEq

/-- The value a panic carries. -/
inductive PanicValue where
  /-- The call `panic(s)` with a string. -/
  | str (s : String)
  /-- The runtime error of calling a nil function value. -/
  | nilDereference
  /-- The runtime error of indexing a slice out of range. -/
  | indexOutOfRange
  deriving DecidableEq

/-- The state of the process: what it has done so far (`trace`), the package variable
`requestCount` of `main.go`, and the monotonic clock, given as the sequence of values
that successive calls of `time.Now()` return (`clock`) with the number of calls made so
far (`clockReads`). -/
structure World where
  trace : List Event
  requestCount : Nat
  clock : Nat → Int
  clockReads : Nat

/-- The result of a call: a normal return with a value, or a panic unwinding to the caller. -/
inductive Outcome (α : Type) where
  | ret (v : α) (s : World)
  | panic (p : PanicValue) (s : World)

/-- The world a call leaves behind. -/
def Outcome.world {α : Type} : Outcome α → World
  | .ret _ s => s
  | .panic _ s => s

/-- The panic value of a call that unwound. -/
def Outcome.panicValue {α : Type} : Outcome α → Option PanicValue
  | .ret _ _ => none
  | .panic p _ => some p

/-- Sequencing of two calls: the second runs on the value and world of the first, and a
panic of the first skips the second. -/
def Outcome.bind {α β : Type} (o : Outcome α) (k : α → World → Outcome β) : Outcome β :=
  match o with
  | .ret v s => k v s
  | .panic p s => .panic p s

/-- The Go type `HandleFunc`: `func(w http.ResponseWriter, r *http.Request)`, or nil. -/
abbrev HandleFunc : Type := Option (ResponseWriter → Request → World → Outcome Unit)

/-- The Go type `Middleware`: `func(HandleFunc) HandleFunc`, or nil. -/
abbrev Middleware : Type := Option (HandleFunc → World → Outcome HandleFunc)

/-- The call `h(w, r)` of a function value. -/
def HandleFunc.call (h : HandleFunc) (w : ResponseWriter) (r : Request) (s : World) :
    Outcome Unit :=
  match h with
  | none => .panic .nilDereference s
  | some f => f w r s

/-- The call `m(next)` of a middleware value. -/
def Middleware.apply (m : Middleware) (next : HandleFunc) (s : World) : Outcome HandleFunc :=
  match m with
  | none => .panic .nilDereference s
  | some f => f next s

/-! ## Package middleware -/

/-- The loop of `Handle`: `for i := len(middlewares) - 1; i >= 0; i--`, with the first
argument one more than the index `i` (so `0` is the exit of the loop). -/
def Handle.loop (middlewares : List Middleware) :
    Nat → HandleFunc → World → Outcome HandleFunc
  | 0, final, s => .ret final s
  | i + 1, final, s =>
    match middlewares.get? i with
    | none => .panic .indexOutOfRange s
    | some m =>
      match m.apply final s with
      | .ret f s1 => Handle.loop middlewares i f s1
      | .panic p s1 => .panic p s1

/-- The function `Handle(final, middlewares...)`. -/
def Handle (final : HandleFunc) (middlewares : List Middleware) (s : World) :
    Outcome HandleFunc :=
  match final with
  | none => .panic (.str "no final handler") s
  | some _ => Handle.loop middlewares middlewares.length final s

/-- The nested application `m0(m1(...(m(n-1)(final))...))` as the specification words
it: the right fold of middleware application over the list, starting from `final`.  As
in Go, the argument of a call is evaluated before the call. -/
def nestedApplication : List Middleware → HandleFunc → World → Outcome HandleFunc
  | [], final, s => .ret final s
  | m :: rest, final, s => (nestedApplication rest final s).bind m.apply

/-! ## Library calls used by main.go -/

/-- The call `log.Printf(format, args...)`. -/
def logPrintf (format : String) (args : List Arg) (s : World) : World :=
  { s with trace := s.trace ++ [.printf format args] }

/-- The method `Add` of `atomic.Uint64`: the new value wraps around at `2 ^ 64`. -/
def requestCountAdd (delta : Nat) (s : World) : World :=
  { s with requestCount := (s.requestCount + delta) % 2 ^ 64 }

/-- The method `Load` of `atomic.Uint64`. -/
def requestCountLoad (s : World) : Nat :=
  s.requestCount

/-- The call `time.Now()`: the next reading of the clock. -/
def timeNow (s : World) : Int × World :=
  (s.clock s.clockReads, { s with clockReads := s.clockReads + 1 })

/-- The largest `time.Duration`. -/
def maxDuration : Int := 2 ^ 63 - 1

/-- The smallest `time.Duration`. -/
def minDuration : Int := -(2 ^ 63)

/-- The method `t.Sub(u)` of `time.Time`: the duration `t - u`, or the largest
(smallest) duration when `t - u` does not fit. -/
def timeSub (t u : Int) : Int :=
  if t - u > maxDuration then maxDuration
  else if t - u < minDuration then minDuration
  else t - u

/-- The constant `time.Second`, in nanoseconds. -/
def Second : Int := 1000000000

/-- The call `time.Sleep(d)`. -/
def timeSleep (d : Int) (s : World) : World :=
  { s with trace := s.trace ++ [.sleep d] }

/-- The constant `http.StatusOK`. -/
def StatusOK : Nat := 200

/-- The constant `http.StatusAccepted`. -/
def StatusAccepted : Nat := 202

/-- The call `w.WriteHeader(statusCode)`. -/
def WriteHeader (w : ResponseWriter) (statusCode : Nat) (s : World) : World :=
  { s with trace := s.trace ++ [.writeHeader w statusCode] }

/-- The call `w.Write([]byte(body))`. -/
def Write (w : ResponseWriter) (body : String) (s : World) : World :=
  { s with trace := s.trace ++ [.write w body] }

/-- A function body with one `defer`: the deferred call runs when the body returns and
also when it unwinds; without a `recover` the panic of the body goes on to the caller,
and a panic of the deferred call itself replaces it. -/
def withDefer (deferred body : World → Outcome Unit) (s : World) : Outcome Unit :=
  match body s with
  | .ret _ s1 => deferred s1
  | .panic p s1 =>
    match deferred s1 with
    | .ret _ s2 => .panic p s2
    | .panic q s2 => .panic q s2

/-! ## Program main.go -/

/-- The closure `logMiddleware` returns. -/
def logMiddleware.func1 (next : HandleFunc) (w : ResponseWriter) (r : Request) (s : World) :
    Outcome Unit :=
  next.call w r (logPrintf "Request received: %s\n" [.str r.RequestURI] s)

/-- The function `logMiddleware`. -/
def logMiddleware : Middleware :=
  some fun next s => .ret (some (logMiddleware.func1 next)) s

/-- The closure `countMiddleware` returns. -/
def countMiddleware.func1 (next : HandleFunc) (w : ResponseWriter) (r : Request) (s : World) :
    Outcome Unit :=
  let s1 := requestCountAdd 1 s
  let s2 := logPrintf "Request count (incl current): %d\n" [.uint (requestCountLoad s1)] s1
  next.call w r s2

/-- The function `countMiddleware`. -/
def countMiddleware : Middleware :=
  some fun next s => .ret (some (countMiddleware.func1 next)) s

/-- The deferred closure of `traceMiddleware`: its arguments are evaluated in order,
`r.RequestURI` and then `time.Now().Sub(start)`, before `log.Printf` is called. -/
def traceMiddleware.func1.deferred (r : Request) (start : Int) (s : World) : Outcome Unit :=
  let uri := r.RequestURI
  let stop := timeNow s
  .ret () (logPrintf "Request time: %s, %s\n" [.str uri, .dur (timeSub stop.1 start)] stop.2)

/-- The closure `traceMiddleware` returns. -/
def traceMiddleware.func1 (next : HandleFunc) (w : ResponseWriter) (r : Request) (s : World) :
    Outcome Unit :=
  let start := timeNow s
  withDefer (traceMiddleware.func1.deferred r start.1) (fun s1 => next.call w r s1) start.2

/-- The function `traceMiddleware`. -/
def traceMiddleware : Middleware :=
  some fun next s => .ret (some (traceMiddleware.func1 next)) s

/-- The function `handleRoot`. -/
def handleRoot : HandleFunc :=
  some fun w _ s => .ret () (Write w "Hello Root" (WriteHeader w StatusOK s))

/-- The function `handleUsers`. -/
def handleUsers : HandleFunc :=
  some fun w _ s =>
    .ret () (Write w "Hello Users" (WriteHeader w StatusAccepted (timeSleep (2 * Second) s)))

/-- The handler `main` registers for the pattern "/". -/
def rootChain (s : World) : Outcome HandleFunc :=
  Handle handleRoot [logMiddleware, countMiddleware, traceMiddleware] s

/-- The handler `main` registers for the pattern "/users". -/
def usersChain (s : World) : Outcome HandleFunc :=
  Handle handleUsers [countMiddleware, logMiddleware, traceMiddleware] s

/-! ## Callers of the package

The transport and the handlers a caller of the package may supply. -/

/-- One request served by a chain: the chain is built in world `s` and the handler it
returns is called once on `(w, r)`. -/
def runChain (final : HandleFunc) (middlewares : List Middleware) (w : ResponseWriter)
    (r : Request) (s : World) : Outcome Unit :=
  (Handle final middlewares s).bind fun h s1 => h.call w r s1

/-- Successive invocations of one handler, one for each request of the list; the server
goes on to the next request whether the handler returned or panicked. -/
def serveAll (h : HandleFunc) : List (ResponseWriter × Request) → World → World
  | [], s => s
  | (w, r) :: rest, s => serveAll h rest (h.call w r s).world

/-- Appending one entry to the shared log. -/
def appendEntry (tag : String) (s : World) : World :=
  { s with trace := s.trace ++ [.entry tag] }

/-- The closure `tagMiddleware` returns. -/
def tagMiddleware.func1 (pre post : String) (next : HandleFunc) (w : ResponseWriter)
    (r : Request) (s : World) : Outcome Unit :=
  (next.call w r (appendEntry pre s)).bind fun _ s1 => .ret () (appendEntry post s1)

/-- A middleware that appends the entry `pre` to the shared log, invokes `next` once,
and then appends the entry `post`. -/
def tagMiddleware (pre post : String) : Middleware :=
  some fun next s => .ret (some (tagMiddleware.func1 pre post next)) s

/-- The middleware of the order law named `name`: it appends `name-before`, invokes
`next` once, and then appends `name-after`. -/
def orderMiddleware (name : String) : Middleware :=
  tagMiddleware (name ++ "-before") (name ++ "-after")

/-- A terminal handler that appends the entries `tags` to the shared log and returns. -/
def tagTerminal (tags : List String) : HandleFunc :=
  some fun _ _ s => .ret () { s with trace := s.trace ++ tags.map Event.entry }

/-- A terminal handler that panics. -/
def panicTerminal : HandleFunc :=
  some fun _ _ s => .panic (.str "terminal failed") s

/-- A list with its first two entries swapped. -/
def swapFirstTwo {α : Type} : List α → List α
  | a :: b :: rest => b :: a :: rest
  | l => l

/-- A list with its last two entries swapped. -/
def swapLastTwo {α : Type} (l : List α) : List α :=
  (swapFirstTwo l.reverse).reverse

/-- A middleware value returns normally: it is nil, or its call returns a handler
whatever handler and world it is given. -/
def Middleware.returnsNormally (m : Middleware) : Prop :=
  ∀ f, m = some f → ∀ (next : HandleFunc) (s : World), ∃ g s1, f next s = .ret g s1

/-- A world at the start of the process: nothing done yet, the counter at zero and a
clock that advances by one millisecond between two readings. -/
def startWorld : World :=
  { trace := [], requestCount := 0, clock := fun n => 1000000 * n, clockReads := 0 }

/-- A writer used as a concrete input. -/
def w0 : ResponseWriter := ⟨0⟩

/-- A request used as a concrete input. -/
def r0 : Request := ⟨"/users"⟩

/-! ## Theorems -/

theorem Outcome.bind_ret {α : Type} (o : Outcome α) : o.bind Outcome.ret = o := by
  cases o <;> rfl

theorem Outcome.bind_assoc {α β γ : Type} (o : Outcome α) (k : α → World → Outcome β)
    (j : β → World → Outcome γ) :
    (o.bind k).bind j = o.bind (fun v s => (k v s).bind j) := by
  cases o <;> rfl

theorem nestedApplication_singleton (m : Middleware) (final : HandleFunc) (s : World) :
    nestedApplication [m] final s = m.apply final s := rfl

/-- Nested application over a concatenation: the inner list is applied first. -/
theorem nestedApplication_append (ms1 ms2 : List Middleware) (final : HandleFunc) (s : World) :
    nestedApplication (ms1 ++ ms2) final s
      = (nestedApplication ms2 final s).bind (nestedApplication ms1) := by
  induction ms1 with
  | nil =>
    show nestedApplication ms2 final s = (nestedApplication ms2 final s).bind Outcome.ret
    rw [Outcome.bind_ret]
  | cons m rest ih =>
    show (nestedApplication (rest ++ ms2) final s).bind m.apply = _
    rw [ih, Outcome.bind_assoc]
    rfl

/-- The loop of `Handle`, entered with `k` middlewares still to apply, computes the
nested application of the first `k` middlewares. -/
theorem Handle.loop_take (ms : List Middleware) :
    ∀ (k : Nat), k ≤ ms.length → ∀ (final : HandleFunc) (s : World),
      Handle.loop ms k final s = nestedApplication (ms.take k) final s := by
  intro k
  induction k with
  | zero => intro _ final s; simp [Handle.loop, nestedApplication]
  | succ i ih =>
    intro hk final s
    have hi : i < ms.length := hk
    have hget : ms.get? i = some (ms.get ⟨i, hi⟩) := List.get?_eq_get hi
    have htake : ms.take (i + 1) = ms.take i ++ [ms.get ⟨i, hi⟩] := by
      rw [List.take_succ, List.getElem?_eq_getElem hi]; rfl
    rw [htake, nestedApplication_append, nestedApplication_singleton]
    unfold Handle.loop
    simp only [hget]
    cases hm : (ms.get ⟨i, hi⟩).apply final s with
    | ret f s1 => exact ih (Nat.le_of_lt hi) f s1
    | panic p s1 => rfl

/-- With a non-nil final handler, `Handle` computes the nested application. -/
theorem Handle_some (f : ResponseWriter → Request → World → Outcome Unit)
    (ms : List Middleware) (s : World) :
    Handle (some f) ms s = nestedApplication ms (some f) s := by
  show Handle.loop ms ms.length (some f) s = _
  rw [Handle.loop_take ms ms.length (Nat.le_refl _), List.take_length]

/-- A list of non-nil middlewares that return normally has a nested application that
returns normally. -/
theorem nestedApplication_returns (ms : List Middleware)
    (hms : ∀ m ∈ ms, m ≠ none ∧ m.returnsNormally) (final : HandleFunc) (s : World) :
    ∃ g s1, nestedApplication ms final s = .ret g s1 := by
  induction ms with
  | nil => exact ⟨final, s, rfl⟩
  | cons m rest ih =>
    obtain ⟨g, s1, hrest⟩ := ih (fun x hx => hms x (List.mem_cons_of_mem m hx))
    obtain ⟨hne, hret⟩ := hms m (List.mem_cons_self m rest)
    cases m with
    | none => exact absurd rfl hne
    | some f =>
      obtain ⟨g2, s2, hf⟩ := hret f rfl g s1
      refine ⟨g2, s2, ?_⟩
      show (nestedApplication rest final s).bind (Middleware.apply (some f)) = _
      rw [hrest]
      exact hf

/-- A middleware that only wraps `next` in a closure returns normally. -/
theorem wrapper_returnsNormally
    (k : HandleFunc → ResponseWriter → Request → World → Outcome Unit) :
    Middleware.returnsNormally (some fun next s => .ret (some (k next)) s) := by
  intro f hf next s
  have hdef : f = fun next s => .ret (some (k next)) s := (Option.some.inj hf).symm
  exact ⟨some (k next), s, by rw [hdef]⟩

theorem demo_middlewares_returnNormally :
    ∀ m ∈ [logMiddleware, countMiddleware, traceMiddleware],
      m ≠ none ∧ m.returnsNormally := by
  intro m hm
  simp only [List.mem_cons, List.mem_singleton, List.not_mem_nil, or_false] at hm
  rcases hm with rfl | rfl | rfl
  · exact ⟨by simp [logMiddleware], wrapper_returnsNormally logMiddleware.func1⟩
  · exact ⟨by simp [countMiddleware], wrapper_returnsNormally countMiddleware.func1⟩
  · exact ⟨by simp [traceMiddleware], wrapper_returnsNormally traceMiddleware.func1⟩

/-- A chain of tagging middlewares around any terminal `T`: the chain is built without
touching the world, and one call of it appends the first entries of the middlewares in
the order of the list, calls `T` once, and if `T` returns appends their second entries
in the reverse order. -/
theorem tagChain_call (ps : List (String × String)) (T : HandleFunc) (s : World) :
    ∃ h : HandleFunc,
      nestedApplication (ps.map fun p => tagMiddleware p.1 p.2) T s = .ret h s
      ∧ ∀ (w : ResponseWriter) (r : Request) (s1 : World),
          h.call w r s1
            = (T.call w r
                { s1 with trace := s1.trace ++ ps.map fun p => Event.entry p.1 }).bind
                fun _ s2 =>
                  .ret ()
                    { s2 with
                      trace := s2.trace ++ ps.reverse.map fun p => Event.entry p.2 } := by
  induction ps with
  | nil =>
    refine ⟨T, rfl, ?_⟩
    intro w r s1
    simp only [List.map_nil, List.reverse_nil, List.append_nil]
    cases T.call w r s1 <;> rfl
  | cons p rest ih =>
    obtain ⟨h, hbuild, hcall⟩ := ih
    refine ⟨some (tagMiddleware.func1 p.1 p.2 h), ?_, ?_⟩
    · show (nestedApplication (rest.map fun p => tagMiddleware p.1 p.2) T s).bind
          (tagMiddleware p.1 p.2).apply = _
      rw [hbuild]
      rfl
    · intro w r s1
      show (h.call w r (appendEntry p.1 s1)).bind (fun _ s2 => .ret () (appendEntry p.2 s2)) = _
      rw [hcall]
      have hworld : ({ appendEntry p.1 s1 with
            trace := (appendEntry p.1 s1).trace ++ rest.map fun p => Event.entry p.1 } : World)
          = { s1 with trace := s1.trace ++ (p :: rest).map fun p => Event.entry p.1 } := by
        simp [appendEntry]
      rw [hworld]
      cases T.call w r
          { s1 with trace := s1.trace ++ (p :: rest).map fun p => Event.entry p.1 } with
      | ret v s2 => simp [Outcome.bind, appendEntry]
      | panic q s2 => rfl

/-- The chain of tagging middlewares around a terminal that appends `ts`. -/
theorem tagChain_terminal (ps : List (String × String)) (ts : List String) (s : World) :
    ∃ h : HandleFunc,
      Handle (tagTerminal ts) (ps.map fun p => tagMiddleware p.1 p.2) s = .ret h s
      ∧ ∀ (w : ResponseWriter) (r : Request) (s1 : World),
          h.call w r s1
            = .ret () { s1 with trace := s1.trace ++ ((ps.map fun p => Event.entry p.1)
                ++ ts.map Event.entry ++ ps.reverse.map fun p => Event.entry p.2) } := by
  obtain ⟨h, hbuild, hcall⟩ := tagChain_call ps (tagTerminal ts) s
  refine ⟨h, ?_, ?_⟩
  · show Handle (some _) _ s = _
    rw [Handle_some]
    exact hbuild
  · intro w r s1
    rw [hcall]
    simp [tagTerminal, HandleFunc.call, Outcome.bind]

/-- One invocation of the closure of `countMiddleware`: the counter is incremented, the
new value is logged, and `next` is called on the same `(w, r)`. -/
theorem countMiddleware_func1_eq (next : HandleFunc) (w : ResponseWriter) (r : Request)
    (s : World) :
    countMiddleware.func1 next w r s
      = next.call w r
          { s with
            requestCount := (s.requestCount + 1) % 2 ^ 64
            trace := s.trace ++ [.printf "Request count (incl current): %d\n"
              [.uint ((s.requestCount + 1) % 2 ^ 64)]] } := rfl

/-- Successive invocations of the closure of `countMiddleware` around a handler that
leaves the counter alone add one to the counter each. -/
theorem serveAll_count (next : HandleFunc)
    (hnext : ∀ w r s1, (next.call w r s1).world.requestCount = s1.requestCount) :
    ∀ (reqs : List (ResponseWriter × Request)) (s : World), s.requestCount < 2 ^ 64 →
      (serveAll (some (countMiddleware.func1 next)) reqs s).requestCount
        = (s.requestCount + reqs.length) % 2 ^ 64 := by
  intro reqs
  induction reqs with
  | nil =>
    intro s hs
    show s.requestCount = (s.requestCount + 0) % 2 ^ 64
    rw [Nat.add_zero, Nat.mod_eq_of_lt hs]
  | cons q rest ih =>
    intro s hs
    obtain ⟨w, r⟩ := q
    have hstep : (HandleFunc.call (some (countMiddleware.func1 next)) w r s).world.requestCount
        = (s.requestCount + 1) % 2 ^ 64 := by
      show (countMiddleware.func1 next w r s).world.requestCount = _
      rw [countMiddleware_func1_eq, hnext]
    show (serveAll (some (countMiddleware.func1 next)) rest
        (HandleFunc.call (some (countMiddleware.func1 next)) w r s).world).requestCount = _
    rw [ih _ (by rw [hstep]; exact Nat.mod_lt _ (by positivity)), hstep, Nat.mod_add_mod,
      List.length_cons]
    congr 1
    omega

/-- The terminal `handleRoot` leaves the counter alone. -/
theorem handleRoot_keeps_count (w : ResponseWriter) (r : Request) (s : World) :
    (handleRoot.call w r s).world.requestCount = s.requestCount := rfl

/-- A body with the deferred call of `traceMiddleware`: the deferred call always
returns, so the outcome has the panic of the body, if any, and the world the deferred
call leaves. -/
theorem withDefer_deferred (r : Request) (start : Int) (body : World → Outcome Unit)
    (s : World) :
    (withDefer (traceMiddleware.func1.deferred r start) body s).world
        = logPrintf "Request time: %s, %s\n"
            [.str r.RequestURI,
              .dur (timeSub ((body s).world.clock (body s).world.clockReads) start)]
            { (body s).world with clockReads := (body s).world.clockReads + 1 }
    ∧ (withDefer (traceMiddleware.func1.deferred r start) body s).panicValue
        = (body s).panicValue := by
  unfold withDefer
  cases body s <;> exact ⟨rfl, rfl⟩

/-- A duration that fits is the difference itself. -/
theorem timeSub_exact (t u : Int) (hlo : minDuration ≤ t - u) (hhi : t - u ≤ maxDuration) :
    timeSub t u = t - u := by
  unfold timeSub
  rw [if_neg (by omega), if_neg (by omega)]

/-! ### Claims about `Handle` -/

/-- C1. For every non-nil final handler and every list of middlewares, `Handle` returns
exactly the nested application `m0(m1(...(m(n-1)(final))...))`, the right fold of
middleware application over the list starting from `final`: the first middleware is the
outermost wrapper (it is applied last, to what `Handle` makes of the rest), and the last
middleware is the one applied directly to `final`. -/
theorem Handle_eq_nestedApplication (f : ResponseWriter → Request → World → Outcome Unit)
    (ms : List Middleware) (s : World) :
    Handle (some f) ms s = nestedApplication ms (some f) s
    ∧ (∀ m0 : Middleware, Handle (some f) (m0 :: ms) s = (Handle (some f) ms s).bind m0.apply)
    ∧ (∀ mlast : Middleware,
        Handle (some f) (ms ++ [mlast]) s
          = (mlast.apply (some f) s).bind (nestedApplication ms)) := by
  refine ⟨Handle_some f ms s, ?_, ?_⟩
  · intro m0
    rw [Handle_some, Handle_some]
    rfl
  · intro mlast
    rw [Handle_some, nestedApplication_append, nestedApplication_singleton]

/-- C3. Identity law: for every non-nil handler `h`, `Handle(h)` with no middleware
returns `h` itself, so calling the result on any request `(w, r)` in any world is calling
`h(w, r)`. -/
theorem Handle_identity (h : ResponseWriter → Request → World → Outcome Unit) (s : World) :
    ∃ g : HandleFunc, Handle (some h) [] s = .ret g s ∧ g = some h
      ∧ ∀ (w : ResponseWriter) (r : Request) (s1 : World), g.call w r s1 = h w r s1 :=
  ⟨some h, rfl, rfl, fun _ _ _ => rfl⟩

/-- C4. Fatal on missing terminal: for every middleware list, the empty one included,
`Handle(nil, ms...)` panics with "no final handler" and returns no handler; the world of
the panic is the world `Handle` was called in, so no middleware has been applied. -/
theorem Handle_nil_final (ms : List Middleware) (s : World) :
    Handle none ms s = .panic (.str "no final handler") s
    ∧ ∀ (g : HandleFunc) (s1 : World), Handle none ms s ≠ .ret g s1 := by
  refine ⟨rfl, ?_⟩
  intro g s1 h
  cases h

/-- C5, as stated, fails: with the non-nil final handler `handleRoot` and the list
`[logMiddleware, nil]`, whose only non-nil member returns normally, `Handle` fails with the
runtime error of calling a nil function. -/
theorem Handle_nil_middleware_fails :
    handleRoot ≠ none
    ∧ Middleware.returnsNormally logMiddleware
    ∧ Handle handleRoot [logMiddleware, none] startWorld
        = .panic .nilDereference startWorld :=
  ⟨by simp [handleRoot], wrapper_returnsNormally logMiddleware.func1, rfl⟩

/-- C5, amended. For every list of non-nil middlewares that return normally, `Handle`
fails if and only if the final handler is nil; with a non-nil final handler it returns a
handler. -/
theorem Handle_fails_iff (final : HandleFunc) (ms : List Middleware) (s : World)
    (hms : ∀ m ∈ ms, m ≠ none ∧ m.returnsNormally) :
    ((∃ p s1, Handle final ms s = .panic p s1) ↔ final = none)
    ∧ (final ≠ none → ∃ g s1, Handle final ms s = .ret g s1) := by
  cases final with
  | none =>
    refine ⟨⟨fun _ => rfl, fun _ => ⟨_, _, rfl⟩⟩, fun h => absurd rfl h⟩
  | some f =>
    obtain ⟨g, s1, hg⟩ := nestedApplication_returns ms hms (some f) s
    rw [Handle_some, hg]
    refine ⟨⟨?_, fun h => by cases h⟩, fun _ => ⟨g, s1, rfl⟩⟩
    rintro ⟨p, s2, h⟩
    cases h

/-- C5, amended, holds at a concrete input: the three middlewares of `main.go` around
`handleRoot`. -/
theorem Handle_fails_iff_witness :
    (∀ m ∈ [logMiddleware, countMiddleware, traceMiddleware], m ≠ none ∧ m.returnsNormally)
    ∧ ((∃ p s1, Handle handleRoot [logMiddleware, countMiddleware, traceMiddleware] startWorld
        = .panic p s1) ↔ handleRoot = none)
    ∧ (handleRoot ≠ none → ∃ g s1,
        Handle handleRoot [logMiddleware, countMiddleware, traceMiddleware] startWorld
          = .ret g s1) :=
  ⟨demo_middlewares_returnNormally,
    Handle_fails_iff handleRoot [logMiddleware, countMiddleware, traceMiddleware] startWorld
      demo_middlewares_returnNormally⟩

/-- C10. Composition distributes over concatenation: for every non-nil final handler and
all lists `ms1` and `ms2` such that `Handle(final, ms2...)` returns a non-nil handler `g`,
`Handle(final, (ms1 ++ ms2)...)` is `Handle(g, ms1...)` called in the world the first
call left: a chain built in stages from the inside out is the chain built in one call. -/
theorem Handle_append (final g : HandleFunc) (ms1 ms2 : List Middleware) (s s1 : World)
    (hfinal : final ≠ none) (hg : g ≠ none) (h2 : Handle final ms2 s = .ret g s1) :
    Handle final (ms1 ++ ms2) s = Handle g ms1 s1 := by
  cases final with
  | none => exact absurd rfl hfinal
  | some f =>
    cases g with
    | none => exact absurd rfl hg
    | some k =>
      rw [Handle_some] at h2
      rw [Handle_some, Handle_some, nestedApplication_append, h2]
      rfl

/-- C10 holds at a concrete input: the chain of the pattern "/" built in two stages. -/
theorem Handle_append_witness :
    handleRoot ≠ none
    ∧ some (traceMiddleware.func1 handleRoot) ≠ none
    ∧ Handle handleRoot [traceMiddleware] startWorld
        = .ret (some (traceMiddleware.func1 handleRoot)) startWorld
    ∧ Handle handleRoot ([logMiddleware, countMiddleware] ++ [traceMiddleware]) startWorld
        = Handle (some (traceMiddleware.func1 handleRoot)) [logMiddleware, countMiddleware]
            startWorld :=
  ⟨by simp [handleRoot], by simp, rfl,
    Handle_append handleRoot (some (traceMiddleware.func1 handleRoot))
      [logMiddleware, countMiddleware] [traceMiddleware] startWorld startWorld
      (by simp [handleRoot]) (by simp) rfl⟩

/-! ### Claims about the order of execution -/

/-- C2. Order law: for every `n`, with middlewares `0, ..., n-1` where middleware `i`
appends `i-before`, invokes `next` once and then appends `i-after`, and a terminal that
appends `T`, building the chain touches nothing and one invocation of it returns having
appended exactly `0-before, ..., (n-1)-before, T, (n-1)-after, ..., 0-after` to the log
(so on an empty log the log is exactly that list).  For `[A, B]` the entries are exactly
`A-before, B-before, T, B-after, A-after`. -/
theorem order_law (n : Nat) (s : World) :
    (∃ h : HandleFunc,
      Handle (tagTerminal ["T"]) ((List.range n).map fun i => orderMiddleware (toString i)) s
        = .ret h s
      ∧ ∀ (w : ResponseWriter) (r : Request) (s1 : World),
          h.call w r s1
            = .ret () { s1 with trace := s1.trace ++
                (((List.range n).map fun i => Event.entry (toString i ++ "-before"))
                  ++ [Event.entry "T"]
                  ++ (List.range n).reverse.map fun i => Event.entry (toString i ++ "-after")) })
    ∧ (∃ h : HandleFunc,
      Handle (tagTerminal ["T"]) [orderMiddleware "A", orderMiddleware "B"] s = .ret h s
      ∧ ∀ (w : ResponseWriter) (r : Request) (s1 : World),
          h.call w r s1
            = .ret () { s1 with trace := s1.trace ++
                [Event.entry "A-before", Event.entry "B-before", Event.entry "T",
                  Event.entry "B-after", Event.entry "A-after"] }) := by
  constructor
  · obtain ⟨h, hbuild, hcall⟩ := tagChain_terminal
      ((List.range n).map fun i => (toString i ++ "-before", toString i ++ "-after")) ["T"] s
    refine ⟨h, ?_, ?_⟩
    · rw [← hbuild]
      simp [orderMiddleware, Function.comp_def]
    · intro w r s1
      rw [hcall]
      simp [List.map_reverse, Function.comp_def]
  · obtain ⟨h, hbuild, hcall⟩ := tagChain_terminal
      [("A" ++ "-before", "A" ++ "-after"), ("B" ++ "-before", "B" ++ "-after")] ["T"] s
    refine ⟨h, hbuild, ?_⟩
    intro w r s1
    rw [hcall]
    rfl

/-- C6, as stated, fails.  With `A` and `B` two middlewares that append the same entries
(`x` before and `y` after `next`), `Handle(T, A, B)` and `Handle(T, B, A)` are the same
chain and give the same log `x, x, T, y, y`; and with a terminal that panics, the two logs have two entries each
and the second is not the first with its first two and its last two entries swapped. -/
theorem reorder_law_fails :
    ((runChain (tagTerminal ["T"]) [tagMiddleware "x" "y", tagMiddleware "x" "y"]
        w0 r0 startWorld).world.trace
      = [Event.entry "x", Event.entry "x", Event.entry "T", Event.entry "y", Event.entry "y"])
    ∧ ((runChain panicTerminal [tagMiddleware "A-before" "A-after",
          tagMiddleware "B-before" "B-after"] w0 r0 startWorld).world.trace
        = [Event.entry "A-before", Event.entry "B-before"])
    ∧ ((runChain panicTerminal [tagMiddleware "B-before" "B-after",
          tagMiddleware "A-before" "A-after"] w0 r0 startWorld).world.trace
        = [Event.entry "B-before", Event.entry "A-before"])
    ∧ [Event.entry "B-before", Event.entry "A-before"]
        ≠ swapLastTwo (swapFirstTwo [Event.entry "A-before", Event.entry "B-before"]) := by
  exact ⟨rfl, rfl, rfl, by decide⟩

/-- C6, amended. For every terminal that appends a fixed list of entries `ts` and
returns, and every two middlewares `A` (entries `a1` before and `a2` after `next`) and
`B` (entries `b1` and `b2`), the log of `Handle(T, A, B)` run on an empty log is
`a1, b1, ts, b2, a2`, the log of `Handle(T, B, A)` is that log with its first two entries
swapped and its last two entries swapped, and the two logs are equal exactly when `A` and
`B` append the same entries (so they differ as soon as `a1` and `b1`, or `a2` and `b2`,
differ). -/
theorem reorder_law (ts : List String) (a1 a2 b1 b2 : String) (w : ResponseWriter)
    (r : Request) (s : World) :
    (runChain (tagTerminal ts) [tagMiddleware a1 a2, tagMiddleware b1 b2] w r
        { s with trace := [] }).world.trace
      = [Event.entry a1, Event.entry b1] ++ ts.map Event.entry ++ [Event.entry b2, Event.entry a2]
    ∧ (runChain (tagTerminal ts) [tagMiddleware b1 b2, tagMiddleware a1 a2] w r
          { s with trace := [] }).world.trace
        = swapLastTwo (swapFirstTwo
            (runChain (tagTerminal ts) [tagMiddleware a1 a2, tagMiddleware b1 b2] w r
              { s with trace := [] }).world.trace)
    ∧ ((runChain (tagTerminal ts) [tagMiddleware a1 a2, tagMiddleware b1 b2] w r
          { s with trace := [] }).world.trace
        = (runChain (tagTerminal ts) [tagMiddleware b1 b2, tagMiddleware a1 a2] w r
          { s with trace := [] }).world.trace
        ↔ a1 = b1 ∧ a2 = b2) := by
  have key : ∀ (p q : String × String),
      (runChain (tagTerminal ts) [tagMiddleware p.1 p.2, tagMiddleware q.1 q.2] w r
          { s with trace := [] }).world.trace
        = [Event.entry p.1, Event.entry q.1] ++ ts.map Event.entry
            ++ [Event.entry q.2, Event.entry p.2] := by
    intro p q
    obtain ⟨h, hbuild, hcall⟩ := tagChain_terminal [p, q] ts { s with trace := [] }
    have hbuild2 : Handle (tagTerminal ts) [tagMiddleware p.1 p.2, tagMiddleware q.1 q.2]
        { s with trace := [] } = .ret h { s with trace := [] } := hbuild
    unfold runChain
    rw [hbuild2]
    show (h.call w r { s with trace := [] }).world.trace = _
    rw [hcall]
    simp [Outcome.world]
  have h1 := key (a1, a2) (b1, b2)
  have h2 := key (b1, b2) (a1, a2)
  simp only at h1 h2
  rw [h1, h2]
  refine ⟨rfl, ?_, ?_⟩
  · simp [swapFirstTwo, swapLastTwo]
  · simp only [List.cons_append, List.nil_append, List.cons.injEq, Event.entry.injEq,
      List.append_cancel_left_eq, and_true]
    constructor
    · rintro ⟨h, -, h3, -⟩; exact ⟨h, h3.symm⟩
    · rintro ⟨h, h3⟩; exact ⟨h, h.symm, h3.symm, h3⟩

/-! ### Claims about the program main.go -/

/-- C7, as stated, fails: with `next` the closure `countMiddleware(handleRoot)`, a
handler that itself increments the counter, one invocation of `countMiddleware(next)`
from the counter value 0 leaves the counter at 2, not at 1. -/
theorem countMiddleware_counts_fails :
    startWorld.requestCount = 0
    ∧ (serveAll (some (countMiddleware.func1 (some (countMiddleware.func1 handleRoot))))
        [(w0, r0)] startWorld).requestCount = 2
    ∧ (2 : Nat) ≠ (0 + 1) % 2 ^ 64 := by
  refine ⟨rfl, rfl, by decide⟩

/-- C7, amended. For every handler `next` that leaves `requestCount` as it found it,
every starting value `c` of the counter (a `uint64`) and every `N`, `N` successive
invocations of `countMiddleware(next)` leave `requestCount` at `(c + N) mod 2^64`; the
invocation after `k` earlier ones sets the counter to `(c + k + 1) mod 2^64`, emits that
value, and then is the call of `next` on the same `(w, r)`. -/
theorem countMiddleware_counts (next : HandleFunc) (reqs : List (ResponseWriter × Request))
    (s : World)
    (hnext : ∀ w r s1, (next.call w r s1).world.requestCount = s1.requestCount)
    (hc : s.requestCount < 2 ^ 64) :
    (serveAll (some (countMiddleware.func1 next)) reqs s).requestCount
      = (s.requestCount + reqs.length) % 2 ^ 64
    ∧ ∀ (k : Nat) (hk : k < reqs.length),
        countMiddleware.func1 next (reqs.get ⟨k, hk⟩).1 (reqs.get ⟨k, hk⟩).2
            (serveAll (some (countMiddleware.func1 next)) (reqs.take k) s)
          = next.call (reqs.get ⟨k, hk⟩).1 (reqs.get ⟨k, hk⟩).2
              { serveAll (some (countMiddleware.func1 next)) (reqs.take k) s with
                requestCount := (s.requestCount + (k + 1)) % 2 ^ 64
                trace := (serveAll (some (countMiddleware.func1 next)) (reqs.take k) s).trace
                  ++ [.printf "Request count (incl current): %d\n"
                    [.uint ((s.requestCount + (k + 1)) % 2 ^ 64)]] } := by
  refine ⟨serveAll_count next hnext reqs s hc, ?_⟩
  intro k hk
  have hk2 : (reqs.take k).length = k := by
    rw [List.length_take]; omega
  have hcount := serveAll_count next hnext (reqs.take k) s hc
  rw [hk2] at hcount
  rw [countMiddleware_func1_eq, hcount, Nat.mod_add_mod, Nat.add_assoc]

/-- C7, amended, holds at a concrete input: three requests served by
`countMiddleware(handleRoot)` from the start of the process. -/
theorem countMiddleware_counts_witness :
    (∀ w r s1, (handleRoot.call w r s1).world.requestCount = s1.requestCount)
    ∧ startWorld.requestCount < 2 ^ 64
    ∧ (serveAll (some (countMiddleware.func1 handleRoot)) [(w0, r0), (w0, r0), (w0, r0)]
        startWorld).requestCount = 3 :=
  ⟨handleRoot_keeps_count, by decide,
    (countMiddleware_counts handleRoot [(w0, r0), (w0, r0), (w0, r0)] startWorld
      handleRoot_keeps_count (by decide)).1⟩

/-- C8. Timing middleware: `traceMiddleware(next)` is built without touching the world,
and for every handler `next` (nil included) and every request `(w, r)`, one invocation
reads the clock once (the reading `start`), calls `next` once on the same `(w, r)` in the
world after that reading, and then, whether `next` returned or panicked, reads the clock
again and emits exactly one timing record after everything `next` did; the duration in
the record is `Sub` of the reading at emission and `start` (their difference whenever it
fits a `Duration`), nothing else changes, and a panic of `next` goes on to the caller
with the record already emitted. -/
theorem traceMiddleware_times (next : HandleFunc) (w : ResponseWriter) (r : Request)
    (s s0 : World) :
    traceMiddleware.apply next s = .ret (some (traceMiddleware.func1 next)) s
    ∧ (traceMiddleware.func1 next w r s0).world.trace
        = (next.call w r { s0 with clockReads := s0.clockReads + 1 }).world.trace
          ++ [.printf "Request time: %s, %s\n"
              [.str r.RequestURI,
                .dur (timeSub
                  ((next.call w r { s0 with clockReads := s0.clockReads + 1 }).world.clock
                    (next.call w r
                      { s0 with clockReads := s0.clockReads + 1 }).world.clockReads)
                  (s0.clock s0.clockReads))]]
    ∧ (traceMiddleware.func1 next w r s0).world.clockReads
        = (next.call w r { s0 with clockReads := s0.clockReads + 1 }).world.clockReads + 1
    ∧ (traceMiddleware.func1 next w r s0).world.requestCount
        = (next.call w r { s0 with clockReads := s0.clockReads + 1 }).world.requestCount
    ∧ (traceMiddleware.func1 next w r s0).world.clock
        = (next.call w r { s0 with clockReads := s0.clockReads + 1 }).world.clock
    ∧ (traceMiddleware.func1 next w r s0).panicValue
        = (next.call w r { s0 with clockReads := s0.clockReads + 1 }).panicValue
    ∧ (∀ t u : Int, minDuration ≤ t - u → t - u ≤ maxDuration → timeSub t u = t - u) := by
  obtain ⟨hworld, hpanic⟩ := withDefer_deferred r (s0.clock s0.clockReads)
    (fun s1 => next.call w r s1) { s0 with clockReads := s0.clockReads + 1 }
  have hdef : traceMiddleware.func1 next w r s0
      = withDefer (traceMiddleware.func1.deferred r (s0.clock s0.clockReads))
          (fun s1 => next.call w r s1) { s0 with clockReads := s0.clockReads + 1 } := rfl
  rw [hdef, hworld, hpanic]
  exact ⟨rfl, rfl, rfl, rfl, rfl, rfl, timeSub_exact⟩

/-- C9. The two registered chains run their middlewares in the order written at
registration.  Both are built without touching the world.  For every request `(w, r)`
the handler of "/" emits the request-received record, then the request-count record,
then calls the terminal once on the same `(w, r)` (for `handleRoot`: status 200, body
`Hello Root`), then emits the request-time record; the handler of "/users" emits the
request-count record first, then the request-received record, then calls the terminal
once on the same `(w, r)` (for `handleUsers`: a sleep of two seconds, status 202, body
`Hello Users`), then emits the request-time record. -/
theorem registered_chains (w : ResponseWriter) (r : Request) (s s0 : World) :
    (∃ h : HandleFunc, rootChain s = .ret h s
      ∧ h.call w r s0 = .ret ()
          { trace := s0.trace ++
              [.printf "Request received: %s\n" [.str r.RequestURI],
                .printf "Request count (incl current): %d\n"
                  [.uint ((s0.requestCount + 1) % 2 ^ 64)],
                .writeHeader w 200,
                .write w "Hello Root",
                .printf "Request time: %s, %s\n"
                  [.str r.RequestURI,
                    .dur (timeSub (s0.clock (s0.clockReads + 1)) (s0.clock s0.clockReads))]]
            requestCount := (s0.requestCount + 1) % 2 ^ 64
            clock := s0.clock
            clockReads := s0.clockReads + 2 })
    ∧ (∃ h : HandleFunc, usersChain s = .ret h s
      ∧ h.call w r s0 = .ret ()
          { trace := s0.trace ++
              [.printf "Request count (incl current): %d\n"
                  [.uint ((s0.requestCount + 1) % 2 ^ 64)],
                .printf "Request received: %s\n" [.str r.RequestURI],
                .sleep 2000000000,
                .writeHeader w 202,
                .write w "Hello Users",
                .printf "Request time: %s, %s\n"
                  [.str r.RequestURI,
                    .dur (timeSub (s0.clock (s0.clockReads + 1)) (s0.clock s0.clockReads))]]
            requestCount := (s0.requestCount + 1) % 2 ^ 64
            clock := s0.clock
            clockReads := s0.clockReads + 2 })
    ∧ (∀ f : ResponseWriter → Request → World → Outcome Unit,
        ∃ h : HandleFunc,
          Handle (some f) [logMiddleware, countMiddleware, traceMiddleware] s = .ret h s
          ∧ h.call w r s0
              = withDefer (traceMiddleware.func1.deferred r (s0.clock s0.clockReads)) (f w r)
                  { trace := s0.trace ++
                      [.printf "Request received: %s\n" [.str r.RequestURI],
                        .printf "Request count (incl current): %d\n"
                          [.uint ((s0.requestCount + 1) % 2 ^ 64)]]
                    requestCount := (s0.requestCount + 1) % 2 ^ 64
                    clock := s0.clock
                    clockReads := s0.clockReads + 1 })
    ∧ (∀ f : ResponseWriter → Request → World → Outcome Unit,
        ∃ h : HandleFunc,
          Handle (some f) [countMiddleware, logMiddleware, traceMiddleware] s = .ret h s
          ∧ h.call w r s0
              = withDefer (traceMiddleware.func1.deferred r (s0.clock s0.clockReads)) (f w r)
                  { trace := s0.trace ++
                      [.printf "Request count (incl current): %d\n"
                          [.uint ((s0.requestCount + 1) % 2 ^ 64)],
                        .printf "Request received: %s\n" [.str r.RequestURI]]
                    requestCount := (s0.requestCount + 1) % 2 ^ 64
                    clock := s0.clock
                    clockReads := s0.clockReads + 1 }) := by
  refine ⟨⟨_, rfl, ?_⟩, ⟨_, rfl, ?_⟩, fun f => ⟨_, rfl, ?_⟩, fun f => ⟨_, rfl, ?_⟩⟩
  · simp [HandleFunc.call, logMiddleware.func1, countMiddleware.func1,
      traceMiddleware.func1, traceMiddleware.func1.deferred, withDefer, handleRoot, logPrintf,
      requestCountAdd, requestCountLoad, timeNow, Write, WriteHeader, StatusOK, Nat.add_assoc]
  · simp [HandleFunc.call, logMiddleware.func1, countMiddleware.func1, traceMiddleware.func1,
      traceMiddleware.func1.deferred, withDefer, handleUsers, logPrintf, requestCountAdd,
      requestCountLoad, timeNow, Write, WriteHeader, StatusAccepted, timeSleep, Second,
      Nat.add_assoc]
  · simp [HandleFunc.call, logMiddleware.func1, countMiddleware.func1, traceMiddleware.func1,
      logPrintf, requestCountAdd, requestCountLoad, timeNow]
  · simp [HandleFunc.call, logMiddleware.func1, countMiddleware.func1, traceMiddleware.func1,
      logPrintf, requestCountAdd, requestCountLoad, timeNow]

end Topics
